import Mathlib

/-!
# Web App Maker: project store and preview composition

A shallow embedding of the `WebAppMaker` class of `src/www/script.js`: the
saved-project list with its `localStorage` snapshot (`constructor`,
`saveProject`, `loadProject`, `deleteProject`) and the document that
`runPreview` writes into the preview frame.

Conventions of the embedding.

* JavaScript strings are `String`; the array `savedProjects` is a
  `List Project` (objects are never mutated in place by the source, so value
  semantics is exact).
* The pieces of the page the methods read and write are fields of `App`: the
  three editor buffers, the two inputs of the save dialog, the active tab, the
  preview document.
* The platform supplies what the source asks of it at each call: the clock
  (`Date.now()`, `new Date().toISOString()`), the answer to `confirm`, and
  whether `localStorage.setItem` succeeds or throws.
* A method returns the state it leaves behind together with a `Completion`:
  a thrown exception does not undo the assignments made before it.
* Methods whose body the source elides (`showToast`, `closeModal`,
  `updateLineCounts`, `escapeHtml`, `toggleDarkMode`, ...) have no modelled
  effect, except that every `showToast` call is recorded in `App.toasts`;
  `calculateProjectSize` is a parameter.
-/

namespace WebAppMaker

/-! ## Data model -/

/-- A saved project, the object literal built in `saveProject`. -/
structure Project where
  id : String
  name : String
  description : String
  html : String
  css : String
  js : String
  timestamp : String
  size : String
  deriving DecidableEq

/-- One call of `showToast(message, type)`. -/
structure Toast where
  message : String
  type : String
  deriving DecidableEq

/-- Exceptions the platform can raise in the modelled methods. -/
inductive Exn where
  /-- raised by `JSON.parse` on text that is not JSON -/
  | syntaxError
  /-- raised by `localStorage.setItem` when the write is refused -/
  | quotaExceeded
  deriving DecidableEq

/-- How a method call ends. -/
inductive Completion where
  | returned
  | threw (e : Exn)
  deriving DecidableEq

/-- The text held by the slot `webAppMakerProjects`, classified by what
`JSON.parse` makes of it. `projects ps` is the text `JSON.stringify` produces
for the array `ps` (and any other text that parses to it). -/
inductive SlotText where
  /-- text that parses to the array of project records `ps` -/
  | projects (ps : List Project)
  /-- text that parses to a falsy value: `null`, `false`, `0`, `""` -/
  | falsy
  /-- text on which `JSON.parse` throws a `SyntaxError` -/
  | invalid (raw : String)
  deriving DecidableEq

/-- The two `localStorage` slots the class uses; `none` is an absent key. -/
structure LocalStorage where
  webAppMakerProjects : Option SlotText
  darkMode : Option String
  deriving DecidableEq

/-- The value `JSON.parse` returns, as far as `|| []` tells values apart. -/
inductive Parsed where
  | falsy
  | array (ps : List Project)
  deriving DecidableEq

/-- The instance fields of `WebAppMaker` and the parts of the page its methods
read and write. -/
structure App where
  currentProject : Option Project
  savedProjects : List Project
  isDarkMode : Bool
  /-- value of the editor `#htmlCode` (then `#cssCode`, `#jsCode`) -/
  htmlCode : String
  cssCode : String
  jsCode : String
  /-- value of the input `#projectName` (then `#projectDescription`) -/
  projectName : String
  projectDescription : String
  /-- the tab made active by the last `showTab` -/
  activeTab : String
  /-- the document last written into the `#preview` frame -/
  preview : Option String
  localStorage : LocalStorage
  /-- the `showToast` calls made so far, oldest first -/
  toasts : List Toast
  deriving DecidableEq

/-- What the platform supplies during one `saveProject` call. -/
structure SaveEnv where
  /-- the value of `Date.now()` -/
  dateNow : Int
  /-- the value of `new Date().toISOString()` -/
  isoNow : String
  /-- whether `localStorage.setItem` succeeds -/
  writeOk : Bool
  deriving DecidableEq

/-- What the platform supplies during one `deleteProject` call. -/
structure DeleteEnv where
  /-- the answer to the `confirm` dialog -/
  confirmed : Bool
  /-- whether `localStorage.setItem` succeeds -/
  writeOk : Bool
  deriving DecidableEq

/-! ## Platform operations -/

/-- The code points `String.prototype.trim` strips: ECMAScript WhiteSpace and
LineTerminator. -/
def isWhiteSpace (c : Char) : Bool :=
  c.toNat ∈ [0x09, 0x0A, 0x0B, 0x0C, 0x0D, 0x20, 0xA0, 0x1680,
    0x2000, 0x2001, 0x2002, 0x2003, 0x2004, 0x2005, 0x2006, 0x2007, 0x2008,
    0x2009, 0x200A, 0x2028, 0x2029, 0x202F, 0x205F, 0x3000, 0xFEFF]

/-- Method `String.prototype.trim`: strip white space from both ends. -/
def trim (s : String) : String :=
  ⟨((s.data.dropWhile isWhiteSpace).reverse.dropWhile isWhiteSpace).reverse⟩

/-- Method `Number.prototype.toString` on an integer clock value: decimal digits,
with a leading minus sign below zero. -/
def numberToString (n : Int) : String :=
  toString n

namespace JSON

/-- Call `JSON.stringify(savedProjects)`: the text that parses back to the array. -/
def stringify (ps : List Project) : SlotText :=
  .projects ps

/-- Call `JSON.parse(localStorage.getItem(key))`; an absent key gives `null`, which
`JSON.parse` reads as the text `null`. -/
def parse : Option SlotText → Except Exn Parsed
  | none => .ok .falsy
  | some .falsy => .ok .falsy
  | some (.projects ps) => .ok (.array ps)
  | some (.invalid _) => .error .syntaxError

end JSON

/-- Call `localStorage.setItem('webAppMakerProjects', text)`: the slot is
replaced, or the write is refused and nothing changes. -/
def setItem (ls : LocalStorage) (writeOk : Bool) (text : SlotText) : Except Exn LocalStorage :=
  if writeOk then .ok { ls with webAppMakerProjects := some text } else .error .quotaExceeded

/-! ## Methods of `WebAppMaker` -/

/-- Method `showToast(message, type)`: the call is recorded. -/
def showToast (message type : String) (app : App) : App :=
  { app with toasts := app.toasts ++ [⟨message, type⟩] }

/-- Method `showTab(tabName)`; the deferred `runPreview` of the preview tab is a later
event and not part of the call. -/
def showTab (tabName : String) (app : App) : App :=
  { app with activeTab := tabName }

/-- The template literal `previewHTML` of `runPreview`. -/
def previewHTML (html css js : String) : String :=
  "\n        <!DOCTYPE html>\n        <html>\n        <head>\n            <meta name=\"viewport\" content=\"width=device-width, initial-scale=1.0\">\n            <style>"
    ++ css ++
  "</style>\n        </head>\n        <body>\n            "
    ++ html ++
  "\n            <script>\n                window.addEventListener(\x27DOMContentLoaded\x27, function() \x7b\n                    "
    ++ js ++
  "\n                \x7d);\n            </script>\n        </body>\n        </html>\n    "

/-- Method `runPreview()`: open, write, close replaces the frame document. -/
def runPreview (app : App) : App :=
  let html := app.htmlCode
  let css := app.cssCode
  let js := app.jsCode
  showToast "Preview updated successfully!" "success"
    { app with preview := some (previewHTML html css js) }

/-- Method `loadDefaultTemplate()`: the three editors receive the starter app. -/
def loadDefaultTemplate (app : App) : App :=
  { app with
    htmlCode := "<!DOCTYPE html>\n<html>\n<head>\n    <title>My Awesome App</title>\n    <meta name=\"viewport\" content=\"width=device-width, initial-scale=1.0\">\n</head>\n<body>\n    <div class=\"container\">\n        <h1>Welcome to My App! 🚀</h1>\n        <p>This is your mobile app created with Web App Maker.</p>\n        <button onclick=\"showWelcome()\">Click Me!</button>\n        <div id=\"output\" style=\"margin-top: 20px; padding: 10px; background: #f0f0f0; border-radius: 5px;\"></div>\n    </div>\n</body>\n</html>"
    cssCode := "body \x7b\n    font-family: -apple-system, BlinkMacSystemFont, \x27Segoe UI\x27, Roboto, sans-serif;\n    margin: 0;\n    padding: 20px;\n    background: linear-gradient(135deg, #667eea, #764ba2);\n    min-height: 100vh;\n    color: white;\n\x7d\n.container \x7b max-width: 400px; margin: 0 auto; text-align: center; \x7d\nh1 \x7b font-size: 24px; margin-bottom: 15px; \x7d\np \x7b font-size: 16px; margin-bottom: 25px; opacity: 0.9; \x7d\nbutton \x7b background: #00b894; color: white; border: none; padding: 12px 30px; font-size: 16px; border-radius: 25px; cursor: pointer; transition: all 0.3s ease; \x7d\nbutton:hover \x7b background: #00a085; transform: translateY(-2px); \x7d"
    jsCode := "function showWelcome() \x7b\n    const output = document.getElementById(\x27output\x27);\n    const messages = [\x27Hello! 👋\x27, \x27Your app is working! 🎉\x27, \x27Built with Web App Maker 📱\x27, \x27Ready for the next step! 🚀\x27];\n    let index = 0;\n    output.innerHTML = \x27\x27;\n    const interval = setInterval(() => \x7b\n        if (index < messages.length) \x7b output.innerHTML += \x27<p>\x27 + messages[index] + \x27</p>\x27; index++; \x7d \n        else clearInterval(interval);\n    \x7d, 800);\n\x7d\nconsole.log(\x27App loaded successfully!\x27);" }

/-- The `constructor`: hydrate the fields from `localStorage`, then
`initializeApp`, `setupEventListeners`, `loadDefaultTemplate` and
`renderProjects`. The page `dom` is the state of the document before the
script runs; its `currentProject`, `savedProjects`, `isDarkMode` and
`localStorage` fields are overwritten. -/
def construct (ls : LocalStorage) (dom : App) : Except Exn App :=
  match JSON.parse ls.webAppMakerProjects with
  | .error e => .error e
  | .ok parsed =>
    let savedProjects :=
      match parsed with
      | .array ps => ps
      | .falsy => []
    let app : App :=
      { dom with
        currentProject := none
        savedProjects := savedProjects
        isDarkMode := decide (ls.darkMode = some "true")
        localStorage := ls }
    .ok (loadDefaultTemplate (showTab "editor" app))

/-- The object literal `project` built by `saveProject` once the name has
passed the check. -/
def projectOf (calculateProjectSize : App → String) (env : SaveEnv) (app : App) : Project :=
  { id := numberToString env.dateNow
    name := trim app.projectName
    description := trim app.projectDescription
    html := app.htmlCode
    css := app.cssCode
    js := app.jsCode
    timestamp := env.isoNow
    size := calculateProjectSize app }

/-- Method `saveProject()`. -/
def saveProject (calculateProjectSize : App → String) (env : SaveEnv) (app : App) :
    App × Completion :=
  let name := trim app.projectName
  if name = "" then
    (showToast "Please enter a project name" "error" app, .returned)
  else
    let project := projectOf calculateProjectSize env app
    let savedProjects :=
      match app.savedProjects.findIdx? (fun p => p.name == name) with
      | some existingIndex => app.savedProjects.set existingIndex project
      | none => project :: app.savedProjects
    let app := { app with savedProjects := savedProjects }
    match setItem app.localStorage env.writeOk (JSON.stringify app.savedProjects) with
    | .error e => (app, .threw e)
    | .ok ls =>
      let app := { app with localStorage := ls }
      (showToast ("Project \"" ++ name ++ "\" saved successfully!") "success" app, .returned)

/-- Method `loadProject(projectId)`. -/
def loadProject (projectId : String) (app : App) : App :=
  match app.savedProjects.find? (fun p => p.id == projectId) with
  | none => app
  | some project =>
    let app :=
      { app with
        htmlCode := project.html
        cssCode := project.css
        jsCode := project.js
        currentProject := some project }
    showToast ("Project \"" ++ project.name ++ "\" loaded!") "success" (showTab "editor" app)

/-- Method `deleteProject(projectId)`. -/
def deleteProject (env : DeleteEnv) (projectId : String) (app : App) : App × Completion :=
  if !env.confirmed then
    (app, .returned)
  else
    let app := { app with savedProjects := app.savedProjects.filter (fun p => p.id != projectId) }
    match setItem app.localStorage env.writeOk (JSON.stringify app.savedProjects) with
    | .error e => (app, .threw e)
    | .ok ls =>
      let app := { app with localStorage := ls }
      (showToast "Project deleted successfully!" "success" app, .returned)

/-! ## Derived notions used by the statements -/

/-- The user fills the save dialog and the three editors. -/
def withInputs (name description html css js : String) (app : App) : App :=
  { app with
    projectName := name
    projectDescription := description
    htmlCode := html
    cssCode := css
    jsCode := js }

/-- What hydrating from the current snapshot would give: the `savedProjects`
expression of the constructor. -/
def hydrate (ls : LocalStorage) : Except Exn (List Project) :=
  match JSON.parse ls.webAppMakerProjects with
  | .error e => .error e
  | .ok (.array ps) => .ok ps
  | .ok .falsy => .ok []

/-- The in-memory list is what the persisted snapshot hydrates to. -/
def InSync (app : App) : Prop :=
  hydrate app.localStorage = .ok app.savedProjects

instance (app : App) : Decidable (InSync app) :=
  match h : hydrate app.localStorage with
  | .ok ps =>
    if hps : ps = app.savedProjects then isTrue (by unfold InSync; rw [h, hps])
    else isFalse (by unfold InSync; rw [h]; intro heq; exact hps (Except.ok.inj heq))
  | .error _ => isFalse (by unfold InSync; rw [h]; intro heq; cases heq)

/-- The project lists that `saveProject` and confirmed `deleteProject` calls
build up from the empty list. -/
inductive Reachable (calculateProjectSize : App → String) : List Project → Prop where
  | empty : Reachable calculateProjectSize []
  | save (env : SaveEnv) (app : App) :
      Reachable calculateProjectSize app.savedProjects →
      Reachable calculateProjectSize (saveProject calculateProjectSize env app).1.savedProjects
  | delete (env : DeleteEnv) (projectId : String) (app : App) :
      env.confirmed = true →
      Reachable calculateProjectSize app.savedProjects →
      Reachable calculateProjectSize (deleteProject env projectId app).1.savedProjects

/-- The `showToast` calls made during a call that took `before` to `after`. -/
def emitted (before after : App) : List Toast :=
  after.toasts.drop before.toasts.length

/-- An empty page with nothing saved, used to build concrete scenarios. -/
def blank : App :=
  { currentProject := none
    savedProjects := []
    isDarkMode := false
    htmlCode := ""
    cssCode := ""
    jsCode := ""
    projectName := ""
    projectDescription := ""
    activeTab := "editor"
    preview := none
    localStorage := ⟨none, none⟩
    toasts := [] }

/-- A size label for concrete scenarios: the combined length in bytes. -/
def sizeInBytes (app : App) : String :=
  toString (app.htmlCode.utf8ByteSize + app.cssCode.utf8ByteSize + app.jsCode.utf8ByteSize) ++ " B"

/-! ## Auxiliary facts about the list operations -/

theorem trim_eq_empty_iff (s : String) :
    trim s = "" ↔ ∀ c ∈ s.data, isWhiteSpace c = true := by
  have h0 : trim s = "" ↔
      ((s.data.dropWhile isWhiteSpace).reverse.dropWhile isWhiteSpace).reverse = [] := by
    unfold trim
    constructor
    · intro h
      exact congrArg String.data h
    · intro h
      rw [h]
  rw [h0, List.reverse_eq_nil_iff, List.dropWhile_eq_nil_iff]
  constructor
  · intro h
    have hnil : s.data.dropWhile isWhiteSpace = [] := by
      cases hd : s.data.dropWhile isWhiteSpace with
      | nil => rfl
      | cons a t =>
        have ha : isWhiteSpace a = true := h a (by simp [hd])
        have hna := List.head_dropWhile_not isWhiteSpace s.data (by simp [hd])
        simp [hd, ha] at hna
    exact List.dropWhile_eq_nil_iff.mp hnil
  · intro h x hx
    rw [List.dropWhile_eq_nil_iff.mpr h] at hx
    simp at hx

theorem saveProject_rejected (sz : App → String) (env : SaveEnv) (app : App)
    (h : trim app.projectName = "") :
    saveProject sz env app = (showToast "Please enter a project name" "error" app, .returned) := by
  simp [saveProject, h]

theorem saveProject_savedProjects (sz : App → String) (env : SaveEnv) (app : App)
    (h : trim app.projectName ≠ "") :
    (saveProject sz env app).1.savedProjects =
      match app.savedProjects.findIdx? (fun p => p.name == trim app.projectName) with
      | some existingIndex => app.savedProjects.set existingIndex (projectOf sz env app)
      | none => projectOf sz env app :: app.savedProjects := by
  unfold saveProject
  cases hw : env.writeOk <;> simp [h, setItem, hw, showToast]

theorem saveProject_storage_ok (sz : App → String) (env : SaveEnv) (app : App)
    (h : trim app.projectName ≠ "") (hw : env.writeOk = true) :
    (saveProject sz env app).2 = .returned ∧
    (saveProject sz env app).1.localStorage.webAppMakerProjects =
      some (JSON.stringify (saveProject sz env app).1.savedProjects) ∧
    (saveProject sz env app).1.toasts = app.toasts ++
      [⟨"Project \"" ++ trim app.projectName ++ "\" saved successfully!", "success"⟩] := by
  unfold saveProject
  simp [h, setItem, hw, showToast]

theorem saveProject_storage_fail (sz : App → String) (env : SaveEnv) (app : App)
    (h : trim app.projectName ≠ "") (hw : env.writeOk = false) :
    (saveProject sz env app).2 = .threw .quotaExceeded ∧
    (saveProject sz env app).1.localStorage = app.localStorage ∧
    (saveProject sz env app).1.toasts = app.toasts := by
  unfold saveProject
  simp [h, setItem, hw]

theorem set_getElem?_of_ne (ps : List Project) (k j : Nat) (q : Project) (h : j ≠ k) :
    (ps.set k q)[j]? = ps[j]? := by
  rw [List.getElem?_set_ne (Ne.symm h)]

theorem find?_set_first (f : Project → Bool) (q : Project) (hq : f q = true) :
    ∀ (ps : List Project) (k : Nat), k < ps.length →
      (∀ j, j < k → ∀ p, ps[j]? = some p → f p = false) →
      (ps.set k q).find? f = some q
  | [], k, hk, _ => by simp at hk
  | a :: t, 0, _, _ => by simp [List.find?_cons, hq]
  | a :: t, k + 1, hk, hbefore => by
    have ha : f a = false := hbefore 0 (Nat.succ_pos k) a (by simp)
    have ih := find?_set_first f q hq t k (by simpa using hk)
      (fun j hj p hp => hbefore (j + 1) (Nat.succ_lt_succ hj) p (by simpa using hp))
    simp [List.find?_cons, ha, ih]

theorem filter_name_unique (n : String) (q : Project) (hq : q.name = n) :
    ∀ (ps : List Project), (ps.map Project.name).Nodup → q ∈ ps →
      ps.filter (fun p => p.name == n) = [q]
  | [], _, hmem => by simp at hmem
  | a :: t, hnd, hmem => by
    rw [List.map_cons, List.nodup_cons] at hnd
    rcases List.mem_cons.mp hmem with rfl | hin
    · have hnone : t.filter (fun p => p.name == n) = [] := by
        rw [List.filter_eq_nil_iff]
        intro p hp hpn
        apply hnd.1
        have : p.name = q.name := by rw [hq]; simpa using hpn
        rw [← this]
        exact List.mem_map_of_mem _ hp
      simp [List.filter_cons, hq, hnone]
    · have hne : a.name ≠ n := by
        intro ha
        apply hnd.1
        rw [ha, ← hq]
        exact List.mem_map_of_mem _ hin
      have ih := filter_name_unique n q hq t hnd.2 hin
      simp [List.filter_cons, hne, ih]

theorem map_name_set_same (n : String) (q : Project) (hq : q.name = n) :
    ∀ (ps : List Project) (k : Nat), ps[k]?.map Project.name = some n →
      (ps.set k q).map Project.name = ps.map Project.name
  | [], _, h => by simp at h
  | a :: t, 0, h => by
    simp at h
    simp [hq, h]
  | a :: t, k + 1, h => by
    have ih := map_name_set_same n q hq t k (by simpa using h)
    simp [ih]

theorem findIdx?_name_spec (n : String) (ps : List Project) (k : Nat)
    (h : ps.findIdx? (fun p => p.name == n) = some k) :
    k < ps.length ∧ ps[k]?.map Project.name = some n ∧
      ∀ j, j < k → ∀ p, ps[j]? = some p → p.name ≠ n := by
  rw [List.findIdx?_eq_some_iff_getElem] at h
  obtain ⟨hk, hpk, hlt⟩ := h
  refine ⟨hk, ?_, ?_⟩
  · rw [List.getElem?_eq_getElem hk]
    simpa using hpk
  · intro j hj p hp hpn
    have hjl : j < ps.length := Nat.lt_trans hj hk
    rw [List.getElem?_eq_getElem hjl] at hp
    have := hlt j hj
    simp at hp
    rw [hp] at this
    simp [hpn] at this

theorem nodup_names_saveProject (sz : App → String) (env : SaveEnv) (app : App)
    (h : (app.savedProjects.map Project.name).Nodup) :
    ((saveProject sz env app).1.savedProjects.map Project.name).Nodup := by
  by_cases hn : trim app.projectName = ""
  · rw [saveProject_rejected sz env app hn]
    exact h
  · rw [saveProject_savedProjects sz env app hn]
    cases hf : app.savedProjects.findIdx? (fun p => p.name == trim app.projectName) with
    | none =>
      simp only [List.map_cons, List.nodup_cons]
      refine ⟨?_, h⟩
      rw [List.findIdx?_eq_none_iff] at hf
      intro hmem
      obtain ⟨p, hp, hpn⟩ := List.mem_map.mp hmem
      have := hf p hp
      simp [projectOf] at hpn
      simp [hpn] at this
    | some k =>
      obtain ⟨_, hk, _⟩ := findIdx?_name_spec _ _ _ hf
      simp only
      rw [map_name_set_same (trim app.projectName) (projectOf sz env app) rfl _ _ hk]
      exact h

theorem nodup_names_deleteProject (env : DeleteEnv) (projectId : String) (app : App)
    (h : (app.savedProjects.map Project.name).Nodup) :
    ((deleteProject env projectId app).1.savedProjects.map Project.name).Nodup := by
  unfold deleteProject
  cases hc : env.confirmed
  · simpa using h
  · have hsub : ((app.savedProjects.filter (fun p => p.id != projectId)).map Project.name).Nodup :=
      List.Nodup.sublist (List.Sublist.map _ (List.filter_sublist _)) h
    cases hw : env.writeOk <;> simpa [setItem, hw, showToast] using hsub

theorem nodup_names_of_reachable (sz : App → String) (ps : List Project)
    (h : Reachable sz ps) : (ps.map Project.name).Nodup := by
  induction h with
  | empty => simp
  | save env app _ ih => exact nodup_names_saveProject sz env app ih
  | delete env projectId app _ _ ih => exact nodup_names_deleteProject env projectId app ih

theorem projectOf_mem_saveProject (sz : App → String) (env : SaveEnv) (app : App)
    (h : trim app.projectName ≠ "") :
    projectOf sz env app ∈ (saveProject sz env app).1.savedProjects := by
  rw [saveProject_savedProjects sz env app h]
  cases hf : app.savedProjects.findIdx? (fun p => p.name == trim app.projectName) with
  | none => simp
  | some k =>
    obtain ⟨hk, _, _⟩ := findIdx?_name_spec _ _ _ hf
    exact List.mem_iff_getElem?.mpr ⟨k, by simp [List.getElem?_set_self hk]⟩

theorem loadProject_found (projectId : String) (app : App) (q : Project)
    (h : app.savedProjects.find? (fun p => p.id == projectId) = some q) :
    (loadProject projectId app).currentProject = some q ∧
    (loadProject projectId app).htmlCode = q.html ∧
    (loadProject projectId app).cssCode = q.css ∧
    (loadProject projectId app).jsCode = q.js ∧
    (loadProject projectId app).savedProjects = app.savedProjects := by
  simp [loadProject, h, showToast, showTab]

theorem loadProject_missing (projectId : String) (app : App)
    (h : ∀ p ∈ app.savedProjects, p.id ≠ projectId) :
    loadProject projectId app = app := by
  have hf : app.savedProjects.find? (fun p => p.id == projectId) = none := by
    rw [List.find?_eq_none]
    intro p hp
    simpa using h p hp
  simp [loadProject, hf]

theorem deleteProject_savedProjects (env : DeleteEnv) (projectId : String) (app : App)
    (hc : env.confirmed = true) :
    (deleteProject env projectId app).1.savedProjects =
      app.savedProjects.filter (fun p => p.id != projectId) := by
  unfold deleteProject
  cases hw : env.writeOk <;> simp [hc, setItem, hw, showToast]

theorem deleteProject_cancelled (env : DeleteEnv) (projectId : String) (app : App)
    (hc : env.confirmed = false) :
    deleteProject env projectId app = (app, .returned) := by
  simp [deleteProject, hc]

theorem deleteProject_ok (env : DeleteEnv) (projectId : String) (app : App)
    (hc : env.confirmed = true) (hw : env.writeOk = true) :
    (deleteProject env projectId app).2 = .returned ∧
    (deleteProject env projectId app).1.localStorage.webAppMakerProjects =
      some (JSON.stringify (deleteProject env projectId app).1.savedProjects) ∧
    (deleteProject env projectId app).1.toasts =
      app.toasts ++ [⟨"Project deleted successfully!", "success"⟩] := by
  unfold deleteProject
  simp [hc, setItem, hw, showToast]

theorem deleteProject_fail (env : DeleteEnv) (projectId : String) (app : App)
    (hc : env.confirmed = true) (hw : env.writeOk = false) :
    (deleteProject env projectId app).2 = .threw .quotaExceeded := by
  unfold deleteProject
  simp [hc, setItem, hw]

theorem inSync_of_slot (app : App)
    (h : app.localStorage.webAppMakerProjects = some (JSON.stringify app.savedProjects)) :
    InSync app := by
  simp [InSync, hydrate, h, JSON.stringify, JSON.parse]

/-! ## Placement on save -/

/-- C3. Placement on save: when the trimmed name is non-empty and some entry
already has that name, `saveProject` yields a list of the same length in which
the new project sits at the index `k` of the first entry with that name and
every other index holds the entry it held before; when no entry has that name,
the resulting list is the new project followed by the prior list. -/
theorem saveProject_placement (sz : App → String) (env : SaveEnv) (app : App)
    (hname : trim app.projectName ≠ "") :
    ((∃ p ∈ app.savedProjects, p.name = trim app.projectName) →
      ∃ k, k < app.savedProjects.length ∧
        app.savedProjects[k]?.map Project.name = some (trim app.projectName) ∧
        (∀ j, j < k → ∀ p, app.savedProjects[j]? = some p → p.name ≠ trim app.projectName) ∧
        (saveProject sz env app).1.savedProjects.length = app.savedProjects.length ∧
        (saveProject sz env app).1.savedProjects[k]? = some (projectOf sz env app) ∧
        ∀ j, j ≠ k → (saveProject sz env app).1.savedProjects[j]? = app.savedProjects[j]?) ∧
    ((∀ p ∈ app.savedProjects, p.name ≠ trim app.projectName) →
      (saveProject sz env app).1.savedProjects = projectOf sz env app :: app.savedProjects) := by
  rw [saveProject_savedProjects sz env app hname]
  constructor
  · rintro ⟨p, hp, hpn⟩
    cases hf : app.savedProjects.findIdx? (fun p => p.name == trim app.projectName) with
    | none =>
      rw [List.findIdx?_eq_none_iff] at hf
      have := hf p hp
      simp [hpn] at this
    | some k =>
      obtain ⟨hk, hkn, hlt⟩ := findIdx?_name_spec _ _ _ hf
      refine ⟨k, hk, hkn, hlt, ?_, ?_, ?_⟩
      · simp
      · simp [List.getElem?_set_self hk]
      · intro j hj
        exact set_getElem?_of_ne _ _ _ _ hj
  · intro hnone
    have hf : app.savedProjects.findIdx? (fun p => p.name == trim app.projectName) = none := by
      rw [List.findIdx?_eq_none_iff]
      intro p hp
      simpa using hnone p hp
    rw [hf]

/-- Both branches of C3 on concrete lists: a save named `b` into `[a, b, c]`
replaces index 1, and a save named `d` goes to the front. -/
theorem saveProject_placement_witness :
    (saveProject sizeInBytes ⟨7, "t7", true⟩
        (withInputs " b " "new" "<p>" "" ""
          { blank with savedProjects :=
              [⟨"1", "a", "", "", "", "", "t1", "0 B"⟩, ⟨"2", "b", "", "", "", "", "t2", "0 B"⟩,
               ⟨"3", "c", "", "", "", "", "t3", "0 B"⟩] })).1.savedProjects
      = [⟨"1", "a", "", "", "", "", "t1", "0 B"⟩, ⟨"7", "b", "new", "<p>", "", "", "t7", "3 B"⟩,
         ⟨"3", "c", "", "", "", "", "t3", "0 B"⟩] ∧
    (saveProject sizeInBytes ⟨7, "t7", true⟩
        (withInputs "d" "" "" "" ""
          { blank with savedProjects := [⟨"1", "a", "", "", "", "", "t1", "0 B"⟩] })).1.savedProjects
      = [⟨"7", "d", "", "", "", "", "t7", "0 B"⟩, ⟨"1", "a", "", "", "", "", "t1", "0 B"⟩] := by
  have h2 := saveProject_placement sizeInBytes ⟨7, "t7", true⟩
    (withInputs "d" "" "" "" ""
      { blank with savedProjects := [⟨"1", "a", "", "", "", "", "t1", "0 B"⟩] }) (by decide)
  refine ⟨?_, ?_⟩
  · decide
  · exact h2.2 (by decide)

/-! ## Name validation -/

/-- C4. Name validation: when the name input is empty or consists only of white
space, `saveProject` returns after reporting the error and stores nothing
(`savedProjects` and `localStorage` are what they were); when the name is
non-empty after trimming the save is not rejected: no error is reported and
the new project is in the list. -/
theorem saveProject_name_validation (sz : App → String) (env : SaveEnv) (app : App) :
    ((∀ c ∈ app.projectName.data, isWhiteSpace c = true) →
      (saveProject sz env app).2 = .returned ∧
      (saveProject sz env app).1.savedProjects = app.savedProjects ∧
      (saveProject sz env app).1.localStorage = app.localStorage ∧
      emitted app (saveProject sz env app).1 = [⟨"Please enter a project name", "error"⟩]) ∧
    (trim app.projectName ≠ "" →
      projectOf sz env app ∈ (saveProject sz env app).1.savedProjects ∧
      (⟨"Please enter a project name", "error"⟩ : Toast) ∉ emitted app (saveProject sz env app).1) := by
  constructor
  · intro hws
    have h : trim app.projectName = "" := (trim_eq_empty_iff _).mpr hws
    rw [saveProject_rejected sz env app h]
    simp [showToast, emitted]
  · intro hne
    constructor
    · exact projectOf_mem_saveProject sz env app hne
    · cases hw : env.writeOk
      · have h := (saveProject_storage_fail sz env app hne hw).2.2
        simp [emitted, h]
      · have h := (saveProject_storage_ok sz env app hne hw).2.2
        simp [emitted, h]

/-- C4 on concrete inputs: a name of blanks and a tab is rejected and leaves the
list alone, the name `x` is stored. -/
theorem saveProject_name_validation_witness :
    (saveProject sizeInBytes ⟨7, "t7", true⟩
        (withInputs " \t " "" "" "" ""
          { blank with savedProjects := [⟨"1", "a", "", "", "", "", "t1", "0 B"⟩] })).1.savedProjects
      = [⟨"1", "a", "", "", "", "", "t1", "0 B"⟩] ∧
    (⟨"7", "x", "", "", "", "", "t7", "0 B"⟩ : Project) ∈
      (saveProject sizeInBytes ⟨7, "t7", true⟩ (withInputs "x" "" "" "" "" blank)).1.savedProjects :=
  ⟨((saveProject_name_validation sizeInBytes ⟨7, "t7", true⟩
        (withInputs " \t " "" "" "" ""
          { blank with savedProjects := [⟨"1", "a", "", "", "", "", "t1", "0 B"⟩] })).1
        (by decide)).2.1,
   ((saveProject_name_validation sizeInBytes ⟨7, "t7", true⟩
        (withInputs "x" "" "" "" "" blank)).2 (by decide)).1⟩

/-! ## Identity on update -/

/-- C7, as stated, fails: saving under the name of an entry created at clock 1
when the clock reads 2 leaves at that position an entry whose id is `2` and
whose timestamp is that of the second save. -/
theorem saveProject_identity_counterexample :
    (saveProject sizeInBytes ⟨2, "1970-01-01T00:00:00.002Z", true⟩
        (withInputs "X" "" "" "" ""
          { blank with savedProjects :=
              [⟨"1", "X", "", "", "", "", "1970-01-01T00:00:00.001Z", "0 B"⟩] })).1.savedProjects
      = [⟨"2", "X", "", "", "", "", "1970-01-01T00:00:00.002Z", "0 B"⟩] ∧
    ("2" : String) ≠ "1" ∧ ("1970-01-01T00:00:00.002Z" : String) ≠ "1970-01-01T00:00:00.001Z" := by
  decide

/-- C7, amended: when the list holds an entry named like the trimmed input,
`saveProject` replaces the first such entry wholesale. The entry then at that
index has the decimal string of the clock read by this save as id and the
time of this save as timestamp, whatever the old entry carried, next to the
new name, description, html, css, js and size label. -/
theorem saveProject_replaces_identity (sz : App → String) (env : SaveEnv) (app : App) (k : Nat)
    (hname : trim app.projectName ≠ "")
    (hk : app.savedProjects.findIdx? (fun p => p.name == trim app.projectName) = some k) :
    ∃ q, (saveProject sz env app).1.savedProjects[k]? = some q ∧
      q.id = numberToString env.dateNow ∧
      q.timestamp = env.isoNow ∧
      q.name = trim app.projectName ∧
      q.description = trim app.projectDescription ∧
      q.html = app.htmlCode ∧ q.css = app.cssCode ∧ q.js = app.jsCode ∧
      q.size = sz app := by
  refine ⟨projectOf sz env app, ?_, rfl, rfl, rfl, rfl, rfl, rfl, rfl, rfl⟩
  rw [saveProject_savedProjects sz env app hname, hk]
  obtain ⟨hlt, _, _⟩ := findIdx?_name_spec _ _ _ hk
  simp [List.getElem?_set_self hlt]

/-- The amended C7 on the list of the counterexample. -/
theorem saveProject_replaces_identity_witness :
    ∃ q, (saveProject sizeInBytes ⟨2, "1970-01-01T00:00:00.002Z", true⟩
        (withInputs "X" "" "" "" ""
          { blank with savedProjects :=
              [⟨"1", "X", "", "", "", "", "1970-01-01T00:00:00.001Z", "0 B"⟩] })).1.savedProjects[0]?
        = some q ∧
      q.id = numberToString 2 ∧
      q.timestamp = "1970-01-01T00:00:00.002Z" ∧
      q.name = trim "X" ∧
      q.description = trim "" ∧
      q.html = "" ∧ q.css = "" ∧ q.js = "" ∧
      q.size = sizeInBytes (withInputs "X" "" "" "" ""
          { blank with savedProjects :=
              [⟨"1", "X", "", "", "", "", "1970-01-01T00:00:00.001Z", "0 B"⟩] }) :=
  saveProject_replaces_identity sizeInBytes ⟨2, "1970-01-01T00:00:00.002Z", true⟩
    (withInputs "X" "" "" "" ""
      { blank with savedProjects :=
          [⟨"1", "X", "", "", "", "", "1970-01-01T00:00:00.001Z", "0 B"⟩] }) 0
    (by decide) (by decide)

/-! ## Upsert by name -/

/-- C1, as stated, fails for a name with white space around it: starting from
the empty list, two saves under the input ` a` leave one entry, named `a`, so
no entry is named ` a`; and the description ` d ` of the second save is stored
as `d`. -/
theorem upsert_by_name_counterexample :
    Reachable sizeInBytes blank.savedProjects ∧ trim " a" ≠ "" ∧
    (saveProject sizeInBytes ⟨2, "t2", true⟩
        (withInputs " a" " d " "B" "B" "B"
          (saveProject sizeInBytes ⟨1, "t1", true⟩
            (withInputs " a" "" "A" "A" "A" blank)).1)).1.savedProjects
      = [⟨"2", "a", "d", "B", "B", "B", "t2", "3 B"⟩] ∧
    ([⟨"2", "a", "d", "B", "B", "B", "t2", "3 B"⟩] : List Project).filter
        (fun p => p.name == " a") = [] ∧
    ("d" : String) ≠ " d " :=
  ⟨Reachable.empty, by decide, by decide, by decide, by decide⟩

/-- C1, amended: in a store state reached from the empty list by `saveProject`
and confirmed `deleteProject` calls, for an input `X` that is non-empty after
trimming, a save under `X` with content A followed by a save under `X` with
content B leaves exactly one entry whose name is `X` trimmed; its html, css and
js are those of B and its description is that of B, trimmed. -/
theorem upsert_by_name (sz : App → String) (app : App)
    (hreach : Reachable sz app.savedProjects)
    (X dA hA cA jA dB hB cB jB : String) (envA envB : SaveEnv) (hX : trim X ≠ "") :
    ∃ q, (saveProject sz envB (withInputs X dB hB cB jB
            (saveProject sz envA (withInputs X dA hA cA jA app)).1)).1.savedProjects.filter
          (fun p => p.name == trim X) = [q] ∧
      q.html = hB ∧ q.css = cB ∧ q.js = jB ∧ q.description = trim dB := by
  have hnd0 : ((withInputs X dA hA cA jA app).savedProjects.map Project.name).Nodup :=
    nodup_names_of_reachable sz _ hreach
  have hnd1 := nodup_names_saveProject sz envA _ hnd0
  have hnd1' : ((withInputs X dB hB cB jB
      (saveProject sz envA (withInputs X dA hA cA jA app)).1).savedProjects.map Project.name).Nodup :=
    hnd1
  have hnd2 := nodup_names_saveProject sz envB _ hnd1'
  have hmem := projectOf_mem_saveProject sz envB
    (withInputs X dB hB cB jB (saveProject sz envA (withInputs X dA hA cA jA app)).1) hX
  exact ⟨_, filter_name_unique (trim X) _ rfl _ hnd2 hmem, rfl, rfl, rfl, rfl⟩

/-- The amended C1 on the scenario of the counterexample. -/
theorem upsert_by_name_witness :
    ∃ q, (saveProject sizeInBytes ⟨2, "t2", true⟩ (withInputs " a" " d " "B" "B" "B"
            (saveProject sizeInBytes ⟨1, "t1", true⟩
              (withInputs " a" "" "A" "A" "A" blank)).1)).1.savedProjects.filter
          (fun p => p.name == trim " a") = [q] ∧
      q.html = "B" ∧ q.css = "B" ∧ q.js = "B" ∧ q.description = trim " d " :=
  upsert_by_name sizeInBytes blank Reachable.empty " a" "" "A" "A" "A" " d " "B" "B" "B"
    ⟨1, "t1", true⟩ ⟨2, "t2", true⟩ (by decide)

/-! ## Save, then load -/

/-- C2, as stated, fails when an entry in front of the replaced one carries the
id the save assigns: with `[a (id 5), b (id 1)]` and the clock at 5, saving
under the name `b` and loading id `5` selects the project `a`, and the editor
receives its html, not the html just saved. -/
theorem save_load_counterexample :
    (loadProject (numberToString 5)
        (saveProject sizeInBytes ⟨5, "t5", true⟩
          (withInputs "b" "" "<new>" "" ""
            { blank with savedProjects :=
                [⟨"5", "a", "", "<old a>", "", "", "t5", "7 B"⟩,
                 ⟨"1", "b", "", "<old b>", "", "", "t1", "7 B"⟩] })).1).currentProject
      = some ⟨"5", "a", "", "<old a>", "", "", "t5", "7 B"⟩ ∧
    (loadProject (numberToString 5)
        (saveProject sizeInBytes ⟨5, "t5", true⟩
          (withInputs "b" "" "<new>" "" ""
            { blank with savedProjects :=
                [⟨"5", "a", "", "<old a>", "", "", "t5", "7 B"⟩,
                 ⟨"1", "b", "", "<old b>", "", "", "t1", "7 B"⟩] })).1).htmlCode
      = "<old a>" := by
  decide

/-- C2, amended: for every store state, clock value and save whose name is
non-empty after trimming, provided that no entry in front of the one the save
replaces carries the id the save assigns (nothing is required when the name is
new), `loadProject` with that id, called in any later state `later` whose list
is the one the save left, selects the project just stored, whose name and
description are the trimmed inputs and whose html, css and js are the editor
buffers at the save, and overwrites the three editors with these, whatever
they held in `later`. -/
theorem save_load_roundtrip (sz : App → String) (env : SaveEnv) (app later : App)
    (hname : trim app.projectName ≠ "")
    (hid : ∀ k, app.savedProjects.findIdx? (fun p => p.name == trim app.projectName) = some k →
      ∀ j, j < k → ∀ p, app.savedProjects[j]? = some p → p.id ≠ numberToString env.dateNow)
    (hlater : later.savedProjects = (saveProject sz env app).1.savedProjects) :
    ∃ q, (loadProject (numberToString env.dateNow) later).currentProject = some q ∧
      q ∈ (saveProject sz env app).1.savedProjects ∧
      q.id = numberToString env.dateNow ∧
      q.name = trim app.projectName ∧
      q.description = trim app.projectDescription ∧
      q.html = app.htmlCode ∧ q.css = app.cssCode ∧ q.js = app.jsCode ∧
      (loadProject (numberToString env.dateNow) later).htmlCode = app.htmlCode ∧
      (loadProject (numberToString env.dateNow) later).cssCode = app.cssCode ∧
      (loadProject (numberToString env.dateNow) later).jsCode = app.jsCode := by
  have hfind : later.savedProjects.find?
      (fun p => p.id == numberToString env.dateNow) = some (projectOf sz env app) := by
    rw [hlater, saveProject_savedProjects sz env app hname]
    cases hf : app.savedProjects.findIdx? (fun p => p.name == trim app.projectName) with
    | none => simp [List.find?_cons, projectOf]
    | some k =>
      obtain ⟨hk, _, _⟩ := findIdx?_name_spec _ _ _ hf
      apply find?_set_first _ _ (by simp [projectOf]) _ _ hk
      intro j hj p hp
      simpa using hid k hf j hj p hp
  obtain ⟨h1, h2, h3, h4, _⟩ := loadProject_found _ _ _ hfind
  exact ⟨projectOf sz env app, h1, projectOf_mem_saveProject sz env app hname,
    rfl, rfl, rfl, rfl, rfl, rfl, h2, h3, h4⟩

/-- The amended C2 on a list `[a (id 1), b (id 2)]` with the clock at 5: the
save under ` b ` replaces index 1, the entry in front of it carries another
id, the editors are then overwritten with scratch text, and the load of id `5`
puts the saved html, css and js back. -/
theorem save_load_roundtrip_witness :
    trim " b " ≠ "" ∧
    ([⟨"1", "a", "", "<old a>", "", "", "t1", "7 B"⟩,
      ⟨"2", "b", "", "<old b>", "", "", "t2", "7 B"⟩] : List Project).findIdx?
        (fun p => p.name == trim " b ") = some 1 ∧
    (withInputs "" "" "<scratch>" "x" "y"
        (saveProject sizeInBytes ⟨5, "t5", true⟩
          (withInputs " b " " d " "<new>" "css" "js"
            { blank with savedProjects :=
                [⟨"1", "a", "", "<old a>", "", "", "t1", "7 B"⟩,
                 ⟨"2", "b", "", "<old b>", "", "", "t2", "7 B"⟩] })).1).htmlCode = "<scratch>" ∧
    ∃ q, (loadProject (numberToString 5)
        (withInputs "" "" "<scratch>" "x" "y"
          (saveProject sizeInBytes ⟨5, "t5", true⟩
            (withInputs " b " " d " "<new>" "css" "js"
              { blank with savedProjects :=
                  [⟨"1", "a", "", "<old a>", "", "", "t1", "7 B"⟩,
                   ⟨"2", "b", "", "<old b>", "", "", "t2", "7 B"⟩] })).1)).currentProject
        = some q ∧
      q.name = "b" ∧ q.description = "d" ∧ q.html = "<new>" ∧ q.css = "css" ∧ q.js = "js" ∧
      (loadProject (numberToString 5)
        (withInputs "" "" "<scratch>" "x" "y"
          (saveProject sizeInBytes ⟨5, "t5", true⟩
            (withInputs " b " " d " "<new>" "css" "js"
              { blank with savedProjects :=
                  [⟨"1", "a", "", "<old a>", "", "", "t1", "7 B"⟩,
                   ⟨"2", "b", "", "<old b>", "", "", "t2", "7 B"⟩] })).1)).htmlCode = "<new>" ∧
      (loadProject (numberToString 5)
        (withInputs "" "" "<scratch>" "x" "y"
          (saveProject sizeInBytes ⟨5, "t5", true⟩
            (withInputs " b " " d " "<new>" "css" "js"
              { blank with savedProjects :=
                  [⟨"1", "a", "", "<old a>", "", "", "t1", "7 B"⟩,
                   ⟨"2", "b", "", "<old b>", "", "", "t2", "7 B"⟩] })).1)).cssCode = "css" ∧
      (loadProject (numberToString 5)
        (withInputs "" "" "<scratch>" "x" "y"
          (saveProject sizeInBytes ⟨5, "t5", true⟩
            (withInputs " b " " d " "<new>" "css" "js"
              { blank with savedProjects :=
                  [⟨"1", "a", "", "<old a>", "", "", "t1", "7 B"⟩,
                   ⟨"2", "b", "", "<old b>", "", "", "t2", "7 B"⟩] })).1)).jsCode = "js" := by
  refine ⟨by decide, by decide, by decide, ?_⟩
  obtain ⟨q, h, _, _, hn, hd, hh, hc, hj, eh, ec, ej⟩ :=
    save_load_roundtrip sizeInBytes ⟨5, "t5", true⟩
      (withInputs " b " " d " "<new>" "css" "js"
        { blank with savedProjects :=
            [⟨"1", "a", "", "<old a>", "", "", "t1", "7 B"⟩,
             ⟨"2", "b", "", "<old b>", "", "", "t2", "7 B"⟩] })
      (withInputs "" "" "<scratch>" "x" "y"
        (saveProject sizeInBytes ⟨5, "t5", true⟩
          (withInputs " b " " d " "<new>" "css" "js"
            { blank with savedProjects :=
                [⟨"1", "a", "", "<old a>", "", "", "t1", "7 B"⟩,
                 ⟨"2", "b", "", "<old b>", "", "", "t2", "7 B"⟩] })).1)
      (by decide) (by decide) rfl
  exact ⟨q, h, hn.trans (by decide), hd.trans (by decide), hh, hc, hj, eh, ec, ej⟩

/-! ## Delete -/

/-- C5. Delete removes exactly the matching entries: after a confirmed
`deleteProject(id)` the list consists of the prior entries whose id differs
from `id`, in their prior relative order; no entry with that id remains, and a
following `loadProject(id)` finds nothing and changes nothing, the editor
buffers and `currentProject` included. -/
theorem deleteProject_removes (env : DeleteEnv) (projectId : String) (app : App)
    (hc : env.confirmed = true) :
    (deleteProject env projectId app).1.savedProjects =
      app.savedProjects.filter (fun p => p.id != projectId) ∧
    (∀ p, p ∈ (deleteProject env projectId app).1.savedProjects ↔
      p ∈ app.savedProjects ∧ p.id ≠ projectId) ∧
    (deleteProject env projectId app).1.savedProjects.Sublist app.savedProjects ∧
    (∀ p ∈ (deleteProject env projectId app).1.savedProjects, p.id ≠ projectId) ∧
    loadProject projectId (deleteProject env projectId app).1 = (deleteProject env projectId app).1 := by
  have hl := deleteProject_savedProjects env projectId app hc
  have hmem : ∀ p, p ∈ (deleteProject env projectId app).1.savedProjects ↔
      p ∈ app.savedProjects ∧ p.id ≠ projectId := by
    intro p
    rw [hl]
    simp [List.mem_filter]
  refine ⟨hl, hmem, ?_, fun p hp => ((hmem p).mp hp).2, ?_⟩
  · rw [hl]
    exact List.filter_sublist _
  · exact loadProject_missing _ _ (fun p hp => ((hmem p).mp hp).2)

/-- C5 on a list in which two entries carry the deleted id. -/
theorem deleteProject_removes_witness :
    (deleteProject ⟨true, true⟩ "2"
        { blank with savedProjects :=
            [⟨"1", "a", "", "", "", "", "t1", "0 B"⟩, ⟨"2", "b", "", "", "", "", "t2", "0 B"⟩,
             ⟨"3", "c", "", "", "", "", "t3", "0 B"⟩, ⟨"2", "d", "", "", "", "", "t2", "0 B"⟩] }).1.savedProjects
      = ([⟨"1", "a", "", "", "", "", "t1", "0 B"⟩, ⟨"2", "b", "", "", "", "", "t2", "0 B"⟩,
          ⟨"3", "c", "", "", "", "", "t3", "0 B"⟩, ⟨"2", "d", "", "", "", "", "t2", "0 B"⟩] :
          List Project).filter (fun p => p.id != "2") ∧
    ([⟨"1", "a", "", "", "", "", "t1", "0 B"⟩, ⟨"2", "b", "", "", "", "", "t2", "0 B"⟩,
      ⟨"3", "c", "", "", "", "", "t3", "0 B"⟩, ⟨"2", "d", "", "", "", "", "t2", "0 B"⟩] :
      List Project).filter (fun p => p.id != "2")
      = [⟨"1", "a", "", "", "", "", "t1", "0 B"⟩, ⟨"3", "c", "", "", "", "", "t3", "0 B"⟩] :=
  ⟨(deleteProject_removes ⟨true, true⟩ "2"
      { blank with savedProjects :=
          [⟨"1", "a", "", "", "", "", "t1", "0 B"⟩, ⟨"2", "b", "", "", "", "", "t2", "0 B"⟩,
           ⟨"3", "c", "", "", "", "", "t3", "0 B"⟩, ⟨"2", "d", "", "", "", "", "t2", "0 B"⟩] }
      rfl).1, by decide⟩

/-- C6, as stated, fails: a confirmed delete of the id `9`, which no entry
carries, ends exactly as the delete of the id `1`, which removes the only
entry: both return normally after the one toast `Project deleted
successfully!`, so nothing reports that the id was missing. -/
theorem deleteProject_missing_counterexample :
    (∀ p ∈ ([⟨"1", "a", "", "", "", "", "t1", "0 B"⟩] : List Project), p.id ≠ "9") ∧
    (deleteProject ⟨true, true⟩ "1"
        { blank with savedProjects := [⟨"1", "a", "", "", "", "", "t1", "0 B"⟩] }).1.savedProjects = [] ∧
    (deleteProject ⟨true, true⟩ "9"
        { blank with savedProjects := [⟨"1", "a", "", "", "", "", "t1", "0 B"⟩] }).2
      = (deleteProject ⟨true, true⟩ "1"
        { blank with savedProjects := [⟨"1", "a", "", "", "", "", "t1", "0 B"⟩] }).2 ∧
    emitted { blank with savedProjects := [⟨"1", "a", "", "", "", "", "t1", "0 B"⟩] }
        (deleteProject ⟨true, true⟩ "9"
          { blank with savedProjects := [⟨"1", "a", "", "", "", "", "t1", "0 B"⟩] }).1
      = emitted { blank with savedProjects := [⟨"1", "a", "", "", "", "", "t1", "0 B"⟩] }
        (deleteProject ⟨true, true⟩ "1"
          { blank with savedProjects := [⟨"1", "a", "", "", "", "", "t1", "0 B"⟩] }).1 ∧
    emitted { blank with savedProjects := [⟨"1", "a", "", "", "", "", "t1", "0 B"⟩] }
        (deleteProject ⟨true, true⟩ "9"
          { blank with savedProjects := [⟨"1", "a", "", "", "", "", "t1", "0 B"⟩] }).1
      = [⟨"Project deleted successfully!", "success"⟩] := by
  decide

/-- C6, amended: for every project list and every id that no entry carries,
`deleteProject(id)` leaves the list unchanged; a confirmed call whose storage
write succeeds returns normally after the toast `Project deleted
successfully!`, the same report as for a delete that removed an entry, and
rewrites the snapshot with the unchanged list. -/
theorem deleteProject_missing (env : DeleteEnv) (projectId : String) (app : App)
    (hmiss : ∀ p ∈ app.savedProjects, p.id ≠ projectId) :
    (deleteProject env projectId app).1.savedProjects = app.savedProjects ∧
    (env.confirmed = true → env.writeOk = true →
      (deleteProject env projectId app).2 = .returned ∧
      emitted app (deleteProject env projectId app).1
        = [⟨"Project deleted successfully!", "success"⟩] ∧
      (deleteProject env projectId app).1.localStorage.webAppMakerProjects
        = some (JSON.stringify app.savedProjects)) := by
  have hl : (deleteProject env projectId app).1.savedProjects = app.savedProjects := by
    cases hc : env.confirmed
    · rw [deleteProject_cancelled env projectId app hc]
    · rw [deleteProject_savedProjects env projectId app hc, List.filter_eq_self]
      intro p hp
      simpa using hmiss p hp
  refine ⟨hl, ?_⟩
  intro hc hw
  obtain ⟨h1, h2, h3⟩ := deleteProject_ok env projectId app hc hw
  refine ⟨h1, ?_, ?_⟩
  · simp [emitted, h3]
  · rw [h2, hl]

/-- The amended C6 on the list of the counterexample. -/
theorem deleteProject_missing_witness :
    (deleteProject ⟨true, true⟩ "9"
        { blank with savedProjects := [⟨"1", "a", "", "", "", "", "t1", "0 B"⟩] }).1.savedProjects
      = [⟨"1", "a", "", "", "", "", "t1", "0 B"⟩] :=
  (deleteProject_missing ⟨true, true⟩ "9"
    { blank with savedProjects := [⟨"1", "a", "", "", "", "", "t1", "0 B"⟩] } (by decide)).1

/-! ## Persistence -/

/-- C8, as stated, fails when the storage write fails: with nothing saved and
no snapshot, a save under the name `a` whose `setItem` throws ends with the
exception, the list already holding the new project and the slot still absent,
so hydrating would give the empty list. -/
theorem persistence_counterexample :
    InSync blank ∧
    (saveProject sizeInBytes ⟨1, "t1", false⟩ (withInputs "a" "" "" "" "" blank)).2
      = .threw .quotaExceeded ∧
    (saveProject sizeInBytes ⟨1, "t1", false⟩ (withInputs "a" "" "" "" "" blank)).1.savedProjects
      = [⟨"1", "a", "", "", "", "", "t1", "0 B"⟩] ∧
    hydrate (saveProject sizeInBytes ⟨1, "t1", false⟩
      (withInputs "a" "" "" "" "" blank)).1.localStorage = .ok [] ∧
    ¬ InSync (saveProject sizeInBytes ⟨1, "t1", false⟩ (withInputs "a" "" "" "" "" blank)).1 := by
  refine ⟨by decide, by decide, by decide, rfl, by decide⟩

/-- C8, amended: if hydrating from the persisted snapshot would yield the
in-memory list before the call, the same holds at every return of
`saveProject` and of `deleteProject`, whether the call was rejected, was
cancelled or completed normally; and on a successful mutation the snapshot
written is the serialization of the whole list. -/
theorem persistence_in_sync (sz : App → String) (senv : SaveEnv) (denv : DeleteEnv)
    (projectId : String) (app : App) (h : InSync app) :
    ((saveProject sz senv app).2 = .returned → InSync (saveProject sz senv app).1) ∧
    ((deleteProject denv projectId app).2 = .returned →
      InSync (deleteProject denv projectId app).1) ∧
    (trim app.projectName ≠ "" → senv.writeOk = true →
      (saveProject sz senv app).1.localStorage.webAppMakerProjects
        = some (JSON.stringify (saveProject sz senv app).1.savedProjects)) ∧
    (denv.confirmed = true → denv.writeOk = true →
      (deleteProject denv projectId app).1.localStorage.webAppMakerProjects
        = some (JSON.stringify (deleteProject denv projectId app).1.savedProjects)) := by
  refine ⟨?_, ?_, ?_, ?_⟩
  · intro hret
    by_cases hn : trim app.projectName = ""
    · rw [saveProject_rejected sz senv app hn]
      exact h
    · cases hw : senv.writeOk
      · rw [(saveProject_storage_fail sz senv app hn hw).1] at hret
        cases hret
      · exact inSync_of_slot _ (saveProject_storage_ok sz senv app hn hw).2.1
  · intro hret
    cases hc : denv.confirmed
    · rw [deleteProject_cancelled denv projectId app hc]
      exact h
    · cases hw : denv.writeOk
      · rw [deleteProject_fail denv projectId app hc hw] at hret
        cases hret
      · exact inSync_of_slot _ (deleteProject_ok denv projectId app hc hw).2.1
  · intro hn hw
    exact (saveProject_storage_ok sz senv app hn hw).2.1
  · intro hc hw
    exact (deleteProject_ok denv projectId app hc hw).2.1

/-- The amended C8 on a store holding one project in step with its snapshot:
after a save under a new name that returns, hydrating yields the new list. -/
theorem persistence_in_sync_witness :
    InSync (withInputs "b" "" "" "" ""
      { blank with
        savedProjects := [⟨"1", "a", "", "", "", "", "t1", "0 B"⟩]
        localStorage := ⟨some (.projects [⟨"1", "a", "", "", "", "", "t1", "0 B"⟩]), none⟩ }) ∧
    InSync (saveProject sizeInBytes ⟨2, "t2", true⟩ (withInputs "b" "" "" "" ""
      { blank with
        savedProjects := [⟨"1", "a", "", "", "", "", "t1", "0 B"⟩]
        localStorage := ⟨some (.projects [⟨"1", "a", "", "", "", "", "t1", "0 B"⟩]), none⟩ })).1 :=
  ⟨by decide,
   (persistence_in_sync sizeInBytes ⟨2, "t2", true⟩ ⟨true, true⟩ "1"
      (withInputs "b" "" "" "" ""
        { blank with
          savedProjects := [⟨"1", "a", "", "", "", "", "t1", "0 B"⟩]
          localStorage := ⟨some (.projects [⟨"1", "a", "", "", "", "", "t1", "0 B"⟩]), none⟩ })
      (by decide)).1 (by decide)⟩

/-! ## Hydration -/

/-- C9, the code at the failing input: when the slot holds text on which
`JSON.parse` throws, the constructor ends with that `SyntaxError` and no store
exists; an absent slot gives a store with an empty list, and the
serialization of a project array gives a store holding that array. -/
theorem construct_unparseable (raw : String) (darkMode : Option String) (dom : App)
    (ps : List Project) :
    construct ⟨some (.invalid raw), darkMode⟩ dom = .error .syntaxError ∧
    (∃ app, construct ⟨none, darkMode⟩ dom = .ok app ∧ app.savedProjects = []) ∧
    (∃ app, construct ⟨some (JSON.stringify ps), darkMode⟩ dom = .ok app ∧
      app.savedProjects = ps) := by
  refine ⟨rfl, ⟨_, rfl, rfl⟩, ⟨_, rfl, rfl⟩⟩

/-! ## Preview composition -/

theorem previewHTML_head :
    "\n        <!DOCTYPE html>\n        <html>\n        <head>\n            <meta name=\"viewport\" content=\"width=device-width, initial-scale=1.0\">\n            <style>"
      = "\n        <!DOCTYPE html>\n        <html>\n        <head>\n            <meta name=\"viewport\" content=\"width=device-width, initial-scale=1.0\">\n            "
        ++ "<style>" := by
  decide

theorem previewHTML_body :
    "</style>\n        </head>\n        <body>\n            "
      = "</style>" ++ "\n        </head>\n        " ++ "<body>" ++ "\n            " := by
  decide

theorem previewHTML_script :
    "\n            <script>\n                window.addEventListener(\x27DOMContentLoaded\x27, function() \x7b\n                    "
      = "\n            " ++ "<script>" ++ "\n                "
        ++ "window.addEventListener(\x27DOMContentLoaded\x27, function() \x7b"
        ++ "\n                    " := by
  decide

theorem previewHTML_tail :
    "\n                \x7d);\n            </script>\n        </body>\n        </html>\n    "
      = "\n                " ++ "\x7d);" ++ "\n            " ++ "</script>"
        ++ "\n        </body>\n        </html>\n    " := by
  decide

/-- C10. Preview composition: the document `runPreview` writes is determined by
the three editor strings alone (two states with the same three buffers get the
same document), and it is the fixed shell with css between the style tags in
the head, html right after the body tag (white space apart), and js, once,
between the opening of the function passed to
`window.addEventListener('DOMContentLoaded', ...)` and its closing, inside a
script element that follows html. -/
theorem runPreview_composition (app other : App) (html css js : String) :
    (runPreview app).preview = some (previewHTML app.htmlCode app.cssCode app.jsCode) ∧
    (app.htmlCode = other.htmlCode → app.cssCode = other.cssCode → app.jsCode = other.jsCode →
      (runPreview app).preview = (runPreview other).preview) ∧
    previewHTML html css js =
      "\n        <!DOCTYPE html>\n        <html>\n        <head>\n            <meta name=\"viewport\" content=\"width=device-width, initial-scale=1.0\">\n            "
        ++ "<style>" ++ css ++ "</style>" ++ "\n        </head>\n        "
        ++ "<body>" ++ "\n            " ++ html ++ "\n            "
        ++ "<script>" ++ "\n                "
        ++ "window.addEventListener(\x27DOMContentLoaded\x27, function() \x7b"
        ++ "\n                    " ++ js ++ "\n                " ++ "\x7d);"
        ++ "\n            " ++ "</script>" ++ "\n        </body>\n        </html>\n    " ∧
    (∀ c ∈ ("\n            " : String).data, isWhiteSpace c = true) ∧
    (∀ c ∈ ("\n                " : String).data, isWhiteSpace c = true) ∧
    (∀ c ∈ ("\n                    " : String).data, isWhiteSpace c = true) := by
  refine ⟨rfl, ?_, ?_, by decide, by decide, by decide⟩
  · intro h1 h2 h3
    simp [runPreview, showToast, h1, h2, h3]
  · unfold previewHTML
    rw [previewHTML_head, previewHTML_body, previewHTML_script, previewHTML_tail]
    simp only [String.append_assoc]

/-- C10 on the scenario of the specification: markup `<p>hi</p>`, style
`p{color:red}`, script `console.log(1)`. -/
theorem runPreview_composition_witness :
    (runPreview (withInputs "" "" "<p>hi</p>" "p\x7bcolor:red\x7d" "console.log(1)" blank)).preview
      = (runPreview (withInputs "Demo" "d" "<p>hi</p>" "p\x7bcolor:red\x7d" "console.log(1)"
          { blank with activeTab := "preview" })).preview :=
  (runPreview_composition
    (withInputs "" "" "<p>hi</p>" "p\x7bcolor:red\x7d" "console.log(1)" blank)
    (withInputs "Demo" "d" "<p>hi</p>" "p\x7bcolor:red\x7d" "console.log(1)"
      { blank with activeTab := "preview" }) "" "" "").2.1 rfl rfl rfl

end WebAppMaker
